import Mathlib

/-
Verification of the vjf repository (online variational joint filtering).

Shallow embedding conventions:
* torch tensors of statically known rank are embedded as `Matrix (Fin b) (Fin d) ℚ`
  (exact rational arithmetic in place of floating point; the transcendental
  pieces of `model.py`'s Gaussian likelihood use `ℝ` and `Real.exp`).
* Python code that can raise is embedded in `Except String`.
* The RBF feature bank evaluates `exp`, so feature maps are kept abstract:
  every definition that calls `self.feature(x)` takes the feature map as an
  explicit function argument.  Likewise the gradient/optimizer machinery
  (`backward`, `optimizer.step`), which the spec treats as an external
  capability, enters the loop embeddings as abstract state-update functions.
* In exact arithmetic, `cholesky` followed by `triangular_solve` or
  `cholesky_solve` computes multiplication by an inverse; the embedding uses
  the adjugate-based inverse `qInv` for those combinations (equal to the true
  inverse whenever the float code would have succeeded, i.e. on invertible
  matrices).
-/

namespace Vjf

open Matrix

/-! ## Generic torch / Python primitives -/

/-- Python scalar division (`1 / diffusion` on floats): raises
`ZeroDivisionError` when the denominator is exactly `0`. -/
def pydiv (a b : ℚ) : Except String ℚ :=
  if b = 0 then .error "ZeroDivisionError" else .ok (a / b)

/-- Computable matrix inverse over `ℚ` via the adjugate; the exact-arithmetic
counterpart of the `cholesky`/`triangular_solve`/`cholesky_solve` combinations
in `module.py` (junk value `0` on singular input, where the float code would
raise instead). -/
def qInv {k : ℕ} (A : Matrix (Fin k) (Fin k) ℚ) : Matrix (Fin k) (Fin k) ℚ :=
  A.det⁻¹ • A.adjugate

/-- `torch.isclose` with the default tolerances `atol = 1e-8`, `rtol = 1e-5`:
`|a - b| <= atol + rtol * |b|`. -/
def torchIsClose (a b : ℚ) : Bool :=
  |a - b| ≤ 1 / 100000000 + (1 / 100000) * |b|

/-- `torch.isclose` lifted to a possibly-NaN left operand (`none` stands for
the `torch.tensor(np.nan)` that `online.py`'s `fit` starts from; `isclose`
is false on NaN). -/
def torchIsCloseOpt : Option ℚ → ℚ → Bool
  | none, _ => false
  | some a, b => torchIsClose a b

/-- `torch.as_tensor` applied to an optional value: raises on `None`. -/
def torchAsTensor {β : Type} : Option β → Except String β
  | none => .error "RuntimeError: could not infer dtype of NoneType"
  | some b => .ok b

/-- `tensor.tile((n_batch, 1))` applied to a single-row tensor: the row is
repeated for every batch index. -/
def tileRow {d : ℕ} (v : Fin d → ℚ) (b : ℕ) : Matrix (Fin b) (Fin d) ℚ :=
  Matrix.of fun _ j => v j

/-- `torch.cat((x, u), dim=-1)`: columns of `x` followed by columns of `u`. -/
def torchCat {b xd ud : ℕ} (x : Matrix (Fin b) (Fin xd) ℚ)
    (u : Matrix (Fin b) (Fin ud) ℚ) : Matrix (Fin b) (Fin xd ⊕ Fin ud) ℚ :=
  Matrix.of fun i => Sum.elim (x i) (u i)

/-- `torch.nn.functional.linear(input, weight) = input @ weight.t()`. -/
def functionalLinear {m k n : ℕ} (input : Matrix (Fin m) (Fin k) ℚ)
    (weight : Matrix (Fin n) (Fin k) ℚ) : Matrix (Fin m) (Fin n) ℚ :=
  input * weightᵀ

/-- Constant 1×1 rational matrix, used for concrete instances. -/
def mat1 (a : ℚ) : Matrix (Fin 1) (Fin 1) ℚ := Matrix.of fun _ _ => a

/-! ## module.py — Bayesian linear regression (`LinearRegression`) -/

/-- The mutable state of `LinearRegression`: weight mean, covariance Cholesky
factor and weight precision (`module.py`, `__init__`). -/
structure LinRegState (k n : ℕ) where
  w_mean : Matrix (Fin k) (Fin n) ℚ
  w_chol : Matrix (Fin k) (Fin k) ℚ
  w_precision : Matrix (Fin k) (Fin k) ℚ
deriving DecidableEq

/-- `LinearRegression.__init__`: zero mean, identity Cholesky factor,
identity precision. -/
def LinearRegression.new (k n : ℕ) : LinRegState k n :=
  { w_mean := 0, w_chol := 1, w_precision := 1 }

/-- `LinearRegression.forward`: features of `x`, then
`functional.linear(feat, w.t())`; when `sampling` the weight is perturbed by
`w_chol @ ε` where `ε` stands for the `torch.randn_like(w)` draw. -/
def LinearRegression.forward {m k n : ℕ} {ι : Type}
    (feature : Matrix (Fin m) ι ℚ → Matrix (Fin m) (Fin k) ℚ)
    (s : LinRegState k n) (x : Matrix (Fin m) ι ℚ)
    (sampling : Bool) (ε : Matrix (Fin k) (Fin n) ℚ) :
    Matrix (Fin m) (Fin n) ℚ :=
  let feat := feature x
  let w := if sampling then s.w_mean + s.w_chol * ε else s.w_mean
  functionalLinear feat wᵀ

/-- The forgetting step of `rls`:
`L = cholesky(P + c * eye); H = P.triangular_solve(L).solution;
P - H.t() @ H`, which in exact arithmetic is `P - Pᵀ (P + c·I)⁻¹ P`. -/
def rlsForget {k : ℕ} (P : Matrix (Fin k) (Fin k) ℚ) (c : ℚ) :
    Matrix (Fin k) (Fin k) ℚ :=
  P - Pᵀ * qInv (P + c • (1 : Matrix (Fin k) (Fin k) ℚ)) * P

/-- `LinearRegression.rls`.  The Python body evaluates `1 / diffusion` first
(a `ZeroDivisionError` when `diffusion == 0`); `scaled_feat = feat / sqrt v`
and `scaled_target = target / sqrt v` enter only through the products
`scaled_feat.t() @ scaled_target = (featᵀ target) / v` and
`scaled_feat.t() @ scaled_feat = (featᵀ feat) / v`, so no square root appears
in the embedding.  The `assert torch.allclose(w_precision, w_precision.t())`
becomes the `AssertionError` branch (exact equality in exact arithmetic), and
`w_mean = g.cholesky_solve(cholesky(P₂))` is `P₂⁻¹ g`. -/
def LinearRegression.rls {m d k n : ℕ}
    (feature : Matrix (Fin m) (Fin d) ℚ → Matrix (Fin m) (Fin k) ℚ)
    (s : LinRegState k n) (x : Matrix (Fin m) (Fin d) ℚ)
    (target : Matrix (Fin m) (Fin n) ℚ) (v : ℚ) (diffusion : ℚ) :
    Except String (LinRegState k n) := do
  let c ← pydiv 1 diffusion
  let P1 := rlsForget s.w_precision c
  let feat := feature x
  let g := P1 * s.w_mean + v⁻¹ • (featᵀ * target)
  let P2 := P1 + v⁻¹ • (featᵀ * feat)
  if P2 = P2ᵀ then
    .ok { w_mean := qInv P2 * g, w_chol := s.w_chol, w_precision := P2 }
  else
    .error "AssertionError"

/-- `LinearRegression.reset`: zeroes the mean and resets the Cholesky factor
to the identity.  (`w_precision` is not touched by `reset` in the source.) -/
def LinearRegression.reset {k n : ℕ} (s : LinRegState k n) : LinRegState k n :=
  { s with w_mean := 0, w_chol := 1 }

/-- One recorded call to `rls`. -/
structure RlsCall (m d n : ℕ) where
  x : Matrix (Fin m) (Fin d) ℚ
  target : Matrix (Fin m) (Fin n) ℚ
  v : ℚ
  diffusion : ℚ

/-- A finite sequence of `rls` updates applied in order (stopping at the
first raised exception, as Python would). -/
def applyRls {m d k n : ℕ}
    (feature : Matrix (Fin m) (Fin d) ℚ → Matrix (Fin m) (Fin k) ℚ) :
    List (RlsCall m d n) → LinRegState k n → Except String (LinRegState k n)
  | [], s => .ok s
  | u :: us, s => do
      let s' ← LinearRegression.rls feature s u.x u.target u.v u.diffusion
      applyRls feature us s'

/-- The ordinary-least-squares solution of `feat @ w = target` by the normal
equations, `(featᵀ feat)⁻¹ featᵀ target`.  Stated from the spec's words
("reproduces ordinary least squares on that one point"), as the comparator
for the `reset`-then-`rls` behaviour. -/
def olsSolution {m k n : ℕ} (feat : Matrix (Fin m) (Fin k) ℚ)
    (target : Matrix (Fin m) (Fin n) ℚ) : Matrix (Fin k) (Fin n) ℚ :=
  qInv (featᵀ * feat) * (featᵀ * target)

/-! ## recognition.py / model.py — diagonal Gaussian state -/

/-- `DiagonalGaussian`: a mean / log-variance pair over the latent state. -/
structure DiagonalGaussian (b d : ℕ) where
  mean : Matrix (Fin b) (Fin d) ℚ
  logvar : Matrix (Fin b) (Fin d) ℚ
deriving DecidableEq

/-- `model.py`'s `detach(q)`: a value-identical copy (gradient flow is not
part of the value-level embedding). -/
def DiagonalGaussian.detach {b d : ℕ} (q : DiagonalGaussian b d) :
    DiagonalGaussian b d :=
  { mean := q.mean, logvar := q.logvar }

/-! ## model.py — the offline `VJF` module -/

namespace ModelPy

/-- The global learned prior parameters of `model.py`'s `VJF`
(`self.mean`, `self.logvar`, registered as trainable `Parameter`s of
shape `(xdim,)`). -/
structure VJFParams (xdim : ℕ) where
  mean : Fin xdim → ℚ
  logvar : Fin xdim → ℚ

/-- `VJF.prior(y)`: `atleast_2d` turns the `(xdim,)` parameters into one-row
matrices, whose single row is then tiled to the batch size of `y`. -/
def VJF.prior {xdim b yd : ℕ} (p : VJFParams xdim)
    (y : Matrix (Fin b) (Fin yd) ℚ) : DiagonalGaussian b xdim :=
  let _ := y
  { mean := tileRow p.mean b, logvar := tileRow p.logvar b }

/-- `model.py`'s `VJF.filter` (single step): `y` is converted and
`atleast_2d`-ed (type level here), `u` is converted only when it `is not
None`, a missing previous posterior `qs` is replaced by `prior(y)`, a present
one is detached; the remaining forward/loss/update pipeline (which needs the
autodiff capability) is abstracted as the function `pipeline`. -/
def VJF.filter {b yd ud xd : ℕ} {ρ : Type} (p : VJFParams xd)
    (pipeline : Option (Matrix (Fin b) (Fin ud) ℚ) → DiagonalGaussian b xd → ρ)
    (y : Matrix (Fin b) (Fin yd) ℚ)
    (u : Option (Matrix (Fin b) (Fin ud) ℚ))
    (qs : Option (DiagonalGaussian b xd)) : Except String ρ :=
  let qs' := match qs with
    | none => VJF.prior p y
    | some q => q.detach
  .ok (pipeline u qs')

/-- `model.py`'s `VJF.fit`: `for i in trange(max_iter)` runs the
zero-grad / filter-the-sequence / backward / step body exactly `max_iter`
times — there is no convergence check and no non-convergence report.
`f` abstracts the total-loss computation of one outer iteration at the
current parameters, `g` the parameter change made by `backward` plus
`optimizer.step()`; the returned list records the per-iteration total
losses (one entry per executed outer iteration). -/
def VJF.fit {σ : Type} (f : σ → ℚ) (g : σ → σ) : ℕ → σ → σ × List ℚ
  | 0, s => (s, [])
  | nn + 1, s =>
      let l := f s
      let r := VJF.fit f g nn (g s)
      (r.1, l :: r.2)

/-- `RBFLDS.forward` (`model.py`): concatenate state and control along the
last axis, featurize, apply the Bayesian linear regressor, and add the
result to `x` — the regressor models the state increment `dx`. -/
def RBFLDS.forward {b xd ud k : ℕ}
    (feature : Matrix (Fin b) (Fin xd ⊕ Fin ud) ℚ → Matrix (Fin b) (Fin k) ℚ)
    (s : LinRegState k xd) (x : Matrix (Fin b) (Fin xd) ℚ)
    (u : Matrix (Fin b) (Fin ud) ℚ) (sampling : Bool)
    (ε : Matrix (Fin k) (Fin xd) ℚ) : Matrix (Fin b) (Fin xd) ℚ :=
  let xu := torchCat x u
  x + LinearRegression.forward feature s xu sampling ε

/-- Top-level names bound by `module.py` (its imports and its two class
statements). -/
def moduleTopLevelNames : List String :=
  ["Union", "torch", "Tensor", "linalg", "Parameter", "Module", "functional",
   "rbf", "kalman", "symmetric", "RBF", "LinearRegression"]

/-- The names `model.py` line 12 requests from `.module`:
`from .module import bLinReg, RBF`. -/
def modelModuleImports : List String := ["bLinReg", "RBF"]

/-- Python `from module import a, b, ...`: raises `ImportError` at the first
requested name the module does not bind. -/
def pythonFromImport (exports requested : List String) : Except String Unit :=
  match requested.find? (fun nm => !exports.contains nm) with
  | some nm => .error ("ImportError: cannot import name " ++ nm ++ " from vjf.module")
  | none => .ok ()

/-- Loading `model.py` executes its import statements; the one from
`.module` is the failing one. -/
def loadModelPy : Except String Unit :=
  pythonFromImport moduleTopLevelNames modelModuleImports

/-- `RBFLDS.__init__` can only run once `model.py` has loaded; it then
builds `bLinReg(RBF(xdim + udim, n_rbf), xdim)`, i.e. a fresh regressor
state with `n_rbf` features and `xdim` outputs. -/
def RBFLDS.make (n_rbf xdim udim : ℕ) : Except String (LinRegState n_rbf xdim) := do
  let _ ← loadModelPy
  let _ := udim
  .ok (LinearRegression.new n_rbf xdim)

/-- `VJF.make_model` constructs an `RBFLDS` transition, hence also requires
`model.py` to have loaded. -/
def VJF.makeModel (ydim xdim udim n_rbf : ℕ) :
    Except String (LinRegState n_rbf xdim) := do
  let _ ← loadModelPy
  let _ := ydim
  RBFLDS.make n_rbf xdim udim

end ModelPy

/-! ## online.py — the online `VJF` module -/

namespace OnlinePy

/-- The default initial posterior of `online.py`'s `VJF.feed` when
`q0 is None`: `mu0 = torch.zeros(batch, xdim)`,
`logvar0 = torch.zeros(batch, xdim)`. -/
def VJF.feedDefaultPrior (b xd : ℕ) : DiagonalGaussian b xd :=
  { mean := 0, logvar := 0 }

/-- `online.py`'s `VJF.feed`: the zero default prior replaces a missing
`q0`; then the recognizer, the ELBO and the four optimizer steps run at
model state `m` (abstracted into `optimStep`, which needs the autodiff
capability), and the returned posterior comes from a second recognizer call
at the updated parameters with the detached `q0`. -/
def VJF.feed {b yd ud xd : ℕ} {σ : Type}
    (recognizer : σ → Matrix (Fin b) (Fin yd) ℚ → Matrix (Fin b) (Fin ud) ℚ →
      DiagonalGaussian b xd → DiagonalGaussian b xd)
    (optimStep : σ → Matrix (Fin b) (Fin yd) ℚ → Matrix (Fin b) (Fin ud) ℚ →
      DiagonalGaussian b xd → σ)
    (m : σ) (y : Matrix (Fin b) (Fin yd) ℚ) (u : Matrix (Fin b) (Fin ud) ℚ)
    (q0 : Option (DiagonalGaussian b xd)) : σ × DiagonalGaussian b xd :=
  let q0' := match q0 with
    | none => VJF.feedDefaultPrior b xd
    | some q => q
  let m' := optimStep m y u q0'
  (m', recognizer m' y u q0'.detach)

/-- `online.py`'s `VJF.filter`: the very first statement converts both `y`
and `u` with `torch.as_tensor` (raising on `u = None`); only then do the
transpose and the per-step `feed` loop (abstracted as `loop`) run. -/
def VJF.filter {α β γ σ ρ : Type} (loop : σ → α → β → Option γ → ρ)
    (m : σ) (y : α) (u : Option β) (q0 : Option γ) : Except String ρ := do
  let us ← torchAsTensor u
  .ok (loop m y us q0)

/-- Result of `online.py`'s `VJF.fit` loop control flow: the final model
state, the `loss` variable (`none` for the initial `torch.tensor(np.nan)`),
whether the `Converged` break fired, and whether the `for`-`else`
`Maximum iteration reached.` report ran. -/
structure FitResult (σ : Type) where
  state : σ
  lossOut : Option ℚ
  converged : Bool
  maxIterReported : Bool

/-- The outer loop of `online.py`'s `VJF.fit`.  Per iteration: compute the
total loss of a full non-optimizing filter pass at the current parameters
(`f`), break with `Converged` when `torch.isclose(loss, new_loss)` (the
previous loss starts as NaN, which is never close), otherwise backward,
clip, step the enabled optimizers and schedulers (`g`) and continue; when
the iteration budget runs out the `for`-`else` branch reports
`Maximum iteration reached.`. -/
def VJF.fitGo {σ : Type} (f : σ → ℚ) (g : σ → σ) :
    ℕ → σ → Option ℚ → FitResult σ
  | 0, s, l => { state := s, lossOut := l, converged := false, maxIterReported := true }
  | nn + 1, s, l =>
      let nl := f s
      if torchIsCloseOpt l nl then
        { state := s, lossOut := l, converged := true, maxIterReported := false }
      else
        VJF.fitGo f g nn (g s) (some nl)

/-- `online.py`'s `VJF.fit`: run the outer loop for `max_iter` iterations
starting from `loss = torch.tensor(np.nan)`. -/
def VJF.fit {σ : Type} (f : σ → ℚ) (g : σ → σ) (maxIter : ℕ) (s0 : σ) :
    FitResult σ :=
  VJF.fitGo f g maxIter s0 none

/-- The total loss `fit` would see at outer iteration `i` (parameters after
`i` optimizer updates). -/
def lossTrace {σ : Type} (f : σ → ℚ) (g : σ → σ) (s0 : σ) (i : ℕ) : ℚ :=
  f (g^[i] s0)

/-- The latent trajectory tensor built by `online.py`'s `VJF.forecast`:
`x[0] = x0` and `x[i+1] = system(x[i], 0) + randn * std` (the control is
fixed to zeros, the noise draws are the abstract sequence `noise`). -/
def forecastTraj {b xd : ℕ}
    (system : Matrix (Fin b) (Fin xd) ℚ → Matrix (Fin b) (Fin xd) ℚ)
    (std : ℚ) (noise : ℕ → Matrix (Fin b) (Fin xd) ℚ)
    (x0 : Matrix (Fin b) (Fin xd) ℚ) : ℕ → Matrix (Fin b) (Fin xd) ℚ
  | 0 => x0
  | i + 1 => system (forecastTraj system std noise x0 i) + std • noise i

/-- `online.py`'s `VJF.forecast`: fill `x[0..step]` by the autonomous noisy
roll-out, decode every latent state through `decoder.likelihood(decoder(x))`
(abstracted as `decodeLik`, applied per time index), and drop the initial
entries when `inclusive` is false (`x = x[1:]`, `y = y[1:]`). -/
def VJF.forecast {b xd yd : ℕ}
    (system : Matrix (Fin b) (Fin xd) ℚ → Matrix (Fin b) (Fin xd) ℚ)
    (std : ℚ) (noise : ℕ → Matrix (Fin b) (Fin xd) ℚ)
    (decodeLik : Matrix (Fin b) (Fin xd) ℚ → Matrix (Fin b) (Fin yd) ℚ)
    (x0 : Matrix (Fin b) (Fin xd) ℚ) (step : ℕ) (inclusive : Bool) :
    List (Matrix (Fin b) (Fin xd) ℚ) × List (Matrix (Fin b) (Fin yd) ℚ) :=
  let x := (List.range (step + 1)).map (forecastTraj system std noise x0)
  let y := x.map decodeLik
  if inclusive then (x, y) else (x.tail, y.tail)

end OnlinePy

/-- The prior claimed by the spec for a filtering step with no previous
posterior, stated from the spec's words: the model's global learned
mean/logvar parameters broadcast (tiled) to the batch size. -/
def claimedGlobalPrior {xd : ℕ} (mean logvar : Fin xd → ℚ) (b : ℕ) :
    DiagonalGaussian b xd :=
  { mean := tileRow mean b, logvar := tileRow logvar b }

/-! ## model.py — Gaussian likelihood (real arithmetic for `exp`) -/

/-- `functional.mse_loss(eta, target, reduction=none)`: elementwise squared
error; for two-axis inputs the result has two axes, so the
`assert mse.ndim == 2` in `GaussianLikelihood.loss` passes (the `Matrix`
type fixes the two axes here). -/
def torchMseLoss {b d : ℕ} (eta target : Matrix (Fin b) (Fin d) ℝ) :
    Matrix (Fin b) (Fin d) ℝ :=
  Matrix.of fun i j => (eta i j - target i j) ^ 2

/-- `tensor.sum(-1)`: sum over the last (output-dimension) axis. -/
def torchSumLastDim {b d : ℕ} (t : Matrix (Fin b) (Fin d) ℝ) : Fin b → ℝ :=
  fun i => ∑ j, t i j

/-- `tensor.mean()` of a one-axis tensor (batch average). -/
noncomputable def torchMeanVec {b : ℕ} (v : Fin b → ℝ) : ℝ :=
  (∑ i, v i) / b

/-- `GaussianLikelihood.loss(eta, target)` (`model.py`): elementwise
`nll = .5 * (mse * p + logvar)` with the precision `p = exp(-logvar)`
(`logvar` the module's trained scalar parameter), then `.sum(-1).mean()`. -/
noncomputable def GaussianLikelihood.loss {b d : ℕ} (logvar : ℝ)
    (eta target : Matrix (Fin b) (Fin d) ℝ) : ℝ :=
  let mse := torchMseLoss eta target
  let p := Real.exp (-logvar)
  let nll := Matrix.of fun i j => (1 / 2) * (mse i j * p + logvar)
  torchMeanVec (torchSumLastDim nll)

/-! ## Helper lemmas -/

theorem qInv_transpose {k : ℕ} (A : Matrix (Fin k) (Fin k) ℚ) :
    qInv Aᵀ = (qInv A)ᵀ := by
  simp [qInv, Matrix.det_transpose, ← Matrix.adjugate_transpose,
    Matrix.transpose_smul]

theorem rlsForget_transpose {k : ℕ} (P : Matrix (Fin k) (Fin k) ℚ) (c : ℚ)
    (h : Pᵀ = P) : (rlsForget P c)ᵀ = rlsForget P c := by
  have hQ : (qInv (P + c • (1 : Matrix (Fin k) (Fin k) ℚ)))ᵀ
      = qInv (P + c • (1 : Matrix (Fin k) (Fin k) ℚ)) := by
    rw [← qInv_transpose, Matrix.transpose_add, h, Matrix.transpose_smul,
      Matrix.transpose_one]
  rw [rlsForget, Matrix.transpose_sub, Matrix.transpose_mul,
    Matrix.transpose_mul, hQ, Matrix.transpose_transpose, h, Matrix.mul_assoc]

/-- The precision produced by a successful `rls` call is symmetric whenever
the incoming precision is. -/
theorem rls_next_transpose {m k : ℕ} (P : Matrix (Fin k) (Fin k) ℚ)
    (F : Matrix (Fin m) (Fin k) ℚ) (v c : ℚ) (h : Pᵀ = P) :
    (rlsForget P c + v⁻¹ • (Fᵀ * F))ᵀ = rlsForget P c + v⁻¹ • (Fᵀ * F) := by
  rw [Matrix.transpose_add, rlsForget_transpose P c h, Matrix.transpose_smul,
    Matrix.transpose_mul, Matrix.transpose_transpose]

/-- Closed form of a successful `rls` call (nonzero diffusion, symmetric
incoming precision, so that the assertion passes). -/
theorem rls_ok {m d k n : ℕ}
    (feature : Matrix (Fin m) (Fin d) ℚ → Matrix (Fin m) (Fin k) ℚ)
    (s : LinRegState k n) (x : Matrix (Fin m) (Fin d) ℚ)
    (t : Matrix (Fin m) (Fin n) ℚ) (v δ : ℚ) (hδ : δ ≠ 0)
    (h : s.w_precisionᵀ = s.w_precision) :
    LinearRegression.rls feature s x t v δ =
      .ok { w_mean :=
              qInv (rlsForget s.w_precision δ⁻¹
                  + v⁻¹ • ((feature x)ᵀ * feature x)) *
                (rlsForget s.w_precision δ⁻¹ * s.w_mean
                  + v⁻¹ • ((feature x)ᵀ * t)),
            w_chol := s.w_chol,
            w_precision := rlsForget s.w_precision δ⁻¹
                  + v⁻¹ • ((feature x)ᵀ * feature x) } := by
  have hP2 := rls_next_transpose s.w_precision (feature x) v δ⁻¹ h
  have hF := rlsForget_transpose s.w_precision δ⁻¹ h
  simp [LinearRegression.rls, pydiv, hδ, bind, Except.bind, hP2, hF]

/-- `rls` with zero diffusion dies in `1 / diffusion` (helper form). -/
theorem rls_zero_helper {m d k n : ℕ}
    (feature : Matrix (Fin m) (Fin d) ℚ → Matrix (Fin m) (Fin k) ℚ)
    (s : LinRegState k n) (x : Matrix (Fin m) (Fin d) ℚ)
    (t : Matrix (Fin m) (Fin n) ℚ) (v : ℚ) :
    LinearRegression.rls feature s x t v 0 = .error "ZeroDivisionError" := by
  simp [LinearRegression.rls, pydiv, bind, Except.bind]

/-- Symmetry of the precision is an invariant of any run of `rls` updates;
in particular the in-call assertion can never fire. -/
theorem applyRls_inv {m d k n : ℕ}
    (feature : Matrix (Fin m) (Fin d) ℚ → Matrix (Fin m) (Fin k) ℚ)
    (us : List (RlsCall m d n)) (s : LinRegState k n)
    (h : s.w_precisionᵀ = s.w_precision) :
    (applyRls feature us s ≠ .error "AssertionError") ∧
    ∀ s', applyRls feature us s = .ok s' → s'.w_precisionᵀ = s'.w_precision := by
  induction us generalizing s with
  | nil =>
      refine ⟨by simp [applyRls], fun s' hs' => ?_⟩
      simp only [applyRls, Except.ok.injEq] at hs'
      exact hs' ▸ h
  | cons u us ih =>
      by_cases hδ : u.diffusion = 0
      · rw [applyRls, hδ, rls_zero_helper feature s u.x u.target u.v]
        constructor
        · intro hcontra
          simp only [bind, Except.bind] at hcontra
          injection hcontra with hstr
          exact (by decide : ¬("ZeroDivisionError" = "AssertionError")) hstr
        · intro s' hs'
          simp [bind, Except.bind] at hs'
      · rw [applyRls, rls_ok feature s u.x u.target u.v u.diffusion hδ h]
        have hnext := rls_next_transpose s.w_precision (feature u.x) u.v
          u.diffusion⁻¹ h
        simpa [bind, Except.bind] using ih _ hnext

theorem mat1_eta (A : Matrix (Fin 1) (Fin 1) ℚ) : A = mat1 (A 0 0) := by
  ext i j
  simp [mat1, Subsingleton.elim i 0, Subsingleton.elim j 0]

theorem mat1_mul (a b : ℚ) : mat1 a * mat1 b = mat1 (a * b) := by
  ext i j
  simp [mat1, Matrix.mul_apply]

theorem mat1_add (a b : ℚ) : mat1 a + mat1 b = mat1 (a + b) := by
  ext i j
  simp [mat1]

theorem mat1_sub (a b : ℚ) : mat1 a - mat1 b = mat1 (a - b) := by
  ext i j
  simp [mat1]

theorem mat1_transpose (a : ℚ) : (mat1 a)ᵀ = mat1 a := by
  ext i j
  simp [mat1]

theorem mat1_smul (c a : ℚ) : c • mat1 a = mat1 (c * a) := by
  ext i j
  simp [mat1]

theorem mat1_one : (1 : Matrix (Fin 1) (Fin 1) ℚ) = mat1 1 := by
  ext i j
  simp [mat1, Subsingleton.elim i j, Matrix.one_apply]

theorem mat1_zero : (0 : Matrix (Fin 1) (Fin 1) ℚ) = mat1 0 := by
  ext i j
  simp [mat1]

theorem mat1_qInv (a : ℚ) : qInv (mat1 a) = mat1 a⁻¹ := by
  ext i j
  simp [qInv, mat1, Matrix.det_fin_one, Matrix.adjugate_fin_one,
    Subsingleton.elim i j, Matrix.one_apply, Matrix.smul_apply]

theorem mat1_inj {a b : ℚ} (h : mat1 a = mat1 b) : a = b := by
  have h0 := congrArg (fun M => M 0 0) h
  simpa [mat1] using h0

/-- `reset` of a fresh regressor is the fresh regressor itself. -/
theorem reset_new : LinearRegression.reset (LinearRegression.new 1 1)
    = LinearRegression.new 1 1 := rfl

/-- Evaluation of one concrete `rls` call on the fresh 1-feature regressor:
`x = [[1]]`, `target = [[1]]`, `v = 1`, `diffusion = 1` yields weight mean
`[[2/3]]` and precision `[[3/2]]`. -/
theorem rls_unit_eval :
    LinearRegression.rls (m := 1) (d := 1) id (LinearRegression.new 1 1)
      (mat1 1) (mat1 1) 1 1 =
    .ok { w_mean := mat1 (2 / 3), w_chol := 1, w_precision := mat1 (3 / 2) } := by
  have hforget : rlsForget (1 : Matrix (Fin 1) (Fin 1) ℚ) 1 = mat1 (1 / 2) := by
    rw [rlsForget, mat1_one, mat1_smul, mat1_add, mat1_qInv, mat1_transpose,
      mat1_mul, mat1_mul, mat1_sub]
    norm_num
  rw [LinearRegression.rls]
  simp only [pydiv, one_ne_zero, if_false, LinearRegression.new, id_eq]
  norm_num
  simp only [bind, Except.bind]
  rw [hforget]
  simp only [mat1_transpose, mat1_mul, mat1_add, mat1_qInv, if_pos rfl]
  norm_num

/-- The same evaluation through `applyRls` with a single recorded call. -/
theorem applyRls_unit_eval :
    applyRls id [⟨mat1 1, mat1 1, 1, 1⟩] (LinearRegression.new 1 1) =
    .ok { w_mean := mat1 (2 / 3), w_chol := 1, w_precision := mat1 (3 / 2) } := by
  rw [applyRls]
  rw [show LinearRegression.rls id (LinearRegression.new 1 1)
        (mat1 1) (mat1 1) (1 : ℚ) (1 : ℚ) =
      .ok { w_mean := mat1 (2 / 3), w_chol := 1, w_precision := mat1 (3 / 2) }
    from rls_unit_eval]
  simp [bind, Except.bind, applyRls]

/-! ## Claims about module.py -/

/-- C1: `LinearRegression.rls` with `diffusion = 0` does NOT route to a
zero-diffusion code path: the body evaluates `1 / diffusion` unconditionally
and raises `ZeroDivisionError` before touching any state, for every input —
the guard the claim describes is absent from the code. -/
theorem rls_zero_diffusion_zerodivision {m d k n : ℕ}
    (feature : Matrix (Fin m) (Fin d) ℚ → Matrix (Fin m) (Fin k) ℚ)
    (s : LinRegState k n) (x : Matrix (Fin m) (Fin d) ℚ)
    (t : Matrix (Fin m) (Fin n) ℚ) (v : ℚ) :
    LinearRegression.rls feature s x t v 0 = .error "ZeroDivisionError" := by
  simp [LinearRegression.rls, pydiv, bind, Except.bind]

/-- C4: starting from the identity precision set at construction, after any
finite list of `rls` updates the stored weight precision equals its own
transpose (exact equality in exact arithmetic, hence within floating
tolerance), and the explicit `assert` inside `rls` can never fire. -/
theorem rls_precision_symmetry {m d k n : ℕ}
    (feature : Matrix (Fin m) (Fin d) ℚ → Matrix (Fin m) (Fin k) ℚ)
    (us : List (RlsCall m d n)) :
    (applyRls feature us (LinearRegression.new k n) ≠ .error "AssertionError") ∧
    ∀ s', applyRls feature us (LinearRegression.new k n) = .ok s' →
      s'.w_precisionᵀ = s'.w_precision :=
  applyRls_inv feature us _ (by simp [LinearRegression.new])

/-- Witness for C4: one concrete `rls` update from the fresh regressor
reaches the symmetric precision `[[3/2]]`. -/
theorem rls_precision_symmetry_witness :
    applyRls id [⟨mat1 1, mat1 1, 1, 1⟩] (LinearRegression.new 1 1) =
      .ok { w_mean := mat1 (2 / 3), w_chol := 1, w_precision := mat1 (3 / 2) } ∧
    ({ w_mean := mat1 (2 / 3), w_chol := 1, w_precision := mat1 (3 / 2) }
        : LinRegState 1 1).w_precisionᵀ =
      ({ w_mean := mat1 (2 / 3), w_chol := 1, w_precision := mat1 (3 / 2) }
        : LinRegState 1 1).w_precision :=
  ⟨applyRls_unit_eval,
    (rls_precision_symmetry id [⟨mat1 1, mat1 1, 1, 1⟩]).2 _ applyRls_unit_eval⟩

/-- C5: the dynamics forward pass of `RBFLDS` returns `x` plus the regressor
applied to the features of the concatenated `(x, u)` input — the residual
parameterization, for both sampling modes. -/
theorem rbflds_forward_residual {b xd ud k : ℕ}
    (feature : Matrix (Fin b) (Fin xd ⊕ Fin ud) ℚ → Matrix (Fin b) (Fin k) ℚ)
    (s : LinRegState k xd) (x : Matrix (Fin b) (Fin xd) ℚ)
    (u : Matrix (Fin b) (Fin ud) ℚ) (sampling : Bool)
    (ε : Matrix (Fin k) (Fin xd) ℚ) :
    ModelPy.RBFLDS.forward feature s x u sampling ε =
      x + feature (torchCat x u) *
        (if sampling then s.w_mean + s.w_chol * ε else s.w_mean) := by
  cases sampling <;>
    simp [ModelPy.RBFLDS.forward, LinearRegression.forward, functionalLinear,
      Matrix.transpose_transpose]

/-- C8 (amended): after `reset()` the weight mean is all zeros and the
covariance Cholesky factor is the identity (the precision is left at its
previous value), and a subsequent single `rls` update from the reset state
returns the precision-regularized posterior mean
`(P' + featᵀ feat / v)⁻¹ (featᵀ target / v)` — the retained prior precision
acts as a ridge term, so this is not the ordinary-least-squares solution in
general. -/
theorem reset_then_rls_ridge {m d k n : ℕ}
    (feature : Matrix (Fin m) (Fin d) ℚ → Matrix (Fin m) (Fin k) ℚ)
    (s : LinRegState k n) (x : Matrix (Fin m) (Fin d) ℚ)
    (t : Matrix (Fin m) (Fin n) ℚ) (v δ : ℚ) (hδ : δ ≠ 0)
    (hsym : s.w_precisionᵀ = s.w_precision) :
    (LinearRegression.reset s).w_mean = 0 ∧
    (LinearRegression.reset s).w_chol = 1 ∧
    (LinearRegression.reset s).w_precision = s.w_precision ∧
    LinearRegression.rls feature (LinearRegression.reset s) x t v δ =
      .ok { w_mean :=
              qInv (rlsForget s.w_precision δ⁻¹
                  + v⁻¹ • ((feature x)ᵀ * feature x)) *
                (v⁻¹ • ((feature x)ᵀ * t)),
            w_chol := 1,
            w_precision := rlsForget s.w_precision δ⁻¹
                  + v⁻¹ • ((feature x)ᵀ * feature x) } := by
  refine ⟨rfl, rfl, rfl, ?_⟩
  rw [rls_ok feature (LinearRegression.reset s) x t v δ hδ hsym]
  simp [LinearRegression.reset, Matrix.mul_zero]

/-- Witness for C8's amended statement at a concrete input. -/
theorem reset_then_rls_ridge_witness :
    ((1 : ℚ) ≠ 0 ∧
     (LinearRegression.new 1 1).w_precisionᵀ = (LinearRegression.new 1 1).w_precision) ∧
    ((LinearRegression.reset (LinearRegression.new 1 1)).w_mean = 0 ∧
     (LinearRegression.reset (LinearRegression.new 1 1)).w_chol = 1 ∧
     (LinearRegression.reset (LinearRegression.new 1 1)).w_precision =
       (LinearRegression.new 1 1).w_precision ∧
     LinearRegression.rls id (LinearRegression.reset (LinearRegression.new 1 1))
         (mat1 1) (mat1 1) 1 1 =
       .ok { w_mean :=
               qInv (rlsForget (LinearRegression.new 1 1).w_precision (1 : ℚ)⁻¹
                   + (1 : ℚ)⁻¹ • ((id (mat1 1))ᵀ * id (mat1 1))) *
                 ((1 : ℚ)⁻¹ • ((id (mat1 1))ᵀ * mat1 1)),
             w_chol := 1,
             w_precision := rlsForget (LinearRegression.new 1 1).w_precision (1 : ℚ)⁻¹
                   + (1 : ℚ)⁻¹ • ((id (mat1 1))ᵀ * id (mat1 1)) }) :=
  ⟨⟨one_ne_zero, by simp [LinearRegression.new]⟩,
    reset_then_rls_ridge id (LinearRegression.new 1 1) (mat1 1) (mat1 1) 1 1
      one_ne_zero (by simp [LinearRegression.new])⟩

/-- C8 counterexample: from the reset fresh 1-feature regressor, a single
`rls` call on the data point `x = [[1]]`, `target = [[1]]` (noise `v = 1`,
diffusion `1`) produces weight mean `[[2/3]]`, while the ordinary
least squares solution on that point is `[[1]]`; the two differ by `1/3`,
far outside `torch.allclose`'s floating tolerance. -/
theorem reset_rls_not_ols_cex :
    LinearRegression.rls id (LinearRegression.reset (LinearRegression.new 1 1))
      (mat1 1) (mat1 1) 1 1 =
      .ok { w_mean := mat1 (2 / 3), w_chol := 1, w_precision := mat1 (3 / 2) } ∧
    olsSolution (id (mat1 1)) (mat1 1) = mat1 1 ∧
    mat1 (2 / 3) ≠ mat1 1 ∧
    torchIsClose (2 / 3) 1 = false := by
  refine ⟨?_, ?_, ?_, ?_⟩
  · rw [reset_new]
    exact rls_unit_eval
  · rw [olsSolution]
    simp only [id_eq, mat1_transpose, mat1_mul, mat1_qInv]
    norm_num
  · intro hne
    have h1 := mat1_inj hne
    norm_num at h1
  · have habs : |(2 : ℚ) / 3 - 1| = 1 / 3 := by
      rw [abs_sub_comm, abs_of_nonneg (by norm_num : (0 : ℚ) ≤ 1 - 2 / 3)]
      norm_num
    simp only [torchIsClose, habs]
    norm_num


/-! ## Fit-loop lemmas -/

theorem lossTrace_zero {σ : Type} (f : σ → ℚ) (g : σ → σ) (s : σ) :
    OnlinePy.lossTrace f g s 0 = f s := rfl

theorem lossTrace_shift {σ : Type} (f : σ → ℚ) (g : σ → σ) (s : σ) (j : ℕ) :
    OnlinePy.lossTrace f g (g s) j = OnlinePy.lossTrace f g s (j + 1) := by
  simp [OnlinePy.lossTrace, Function.iterate_succ_apply]

theorem fitGo_maxIterReported {σ : Type} (f : σ → ℚ) (g : σ → σ) :
    ∀ (n : ℕ) (s : σ) (l : Option ℚ),
      (OnlinePy.VJF.fitGo f g n s l).maxIterReported =
        !(OnlinePy.VJF.fitGo f g n s l).converged := by
  intro n
  induction n with
  | zero => intro s l; rfl
  | succ nn ih =>
      intro s l
      by_cases h : torchIsCloseOpt l (f s) <;>
        simp [OnlinePy.VJF.fitGo, h, ih]

/-- Where the `Converged` break of `online.py`'s `fit` loop fires, with the
pre-loop loss `l` as the comparison partner of the first iteration. -/
theorem fitGo_converged_iff {σ : Type} (f : σ → ℚ) (g : σ → σ) :
    ∀ (n : ℕ) (s : σ) (l : Option ℚ),
      (OnlinePy.VJF.fitGo f g n s l).converged = true ↔
      ∃ j, j < n ∧ torchIsCloseOpt
          (match j with
           | 0 => l
           | j' + 1 => some (OnlinePy.lossTrace f g s j'))
          (OnlinePy.lossTrace f g s j) = true := by
  intro n
  induction n with
  | zero =>
      intro s l
      simp [OnlinePy.VJF.fitGo]
  | succ nn ih =>
      intro s l
      by_cases h : torchIsCloseOpt l (f s)
      · simp only [OnlinePy.VJF.fitGo, h, if_true]
        constructor
        · intro hx
          exact ⟨0, Nat.succ_pos nn, by simpa [lossTrace_zero] using h⟩
        · intro hx
          trivial
      · simp only [OnlinePy.VJF.fitGo, h, Bool.false_eq_true, if_false]
        rw [ih (g s) (some (f s))]
        constructor
        · rintro ⟨j, hj, hc⟩
          refine ⟨j + 1, by omega, ?_⟩
          cases j with
          | zero =>
              simpa [lossTrace_zero, lossTrace_shift] using hc
          | succ j' =>
              simpa [lossTrace_shift] using hc
        · rintro ⟨j, hj, hc⟩
          cases j with
          | zero =>
              rw [lossTrace_zero] at hc
              exact absurd hc (by simp [h])
          | succ j' =>
              refine ⟨j', by omega, ?_⟩
              cases j' with
              | zero =>
                  simpa [lossTrace_zero, lossTrace_shift] using hc
              | succ j2 =>
                  simpa [lossTrace_shift] using hc

theorem modelPyFit_length {σ : Type} (f : σ → ℚ) (g : σ → σ) :
    ∀ (n : ℕ) (s : σ), (ModelPy.VJF.fit f g n s).2.length = n := by
  intro n
  induction n with
  | zero => intro s; rfl
  | succ nn ih => intro s; simp [ModelPy.VJF.fit, ih]

/-! ## Claims about the filtering and fitting loops -/

/-- C2 (amended): in `model.py`, `filter` with no previous posterior routes
through `prior(y)`, which is exactly the model's global learned mean/logvar
parameters tiled to the batch size of `y`; in `online.py`, `feed` with
`q0 = None` instead substitutes the fixed all-zero mean / all-zero logvar
prior (independent of any learned parameter). -/
theorem filter_prior_routing :
    (∀ (b yd ud xd : ℕ) (ρ : Type) (p : ModelPy.VJFParams xd)
        (pipeline : Option (Matrix (Fin b) (Fin ud) ℚ) → DiagonalGaussian b xd → ρ)
        (y : Matrix (Fin b) (Fin yd) ℚ) (u : Option (Matrix (Fin b) (Fin ud) ℚ)),
      ModelPy.VJF.filter p pipeline y u none =
        .ok (pipeline u (ModelPy.VJF.prior p y)) ∧
      ModelPy.VJF.prior p y = claimedGlobalPrior p.mean p.logvar b) ∧
    (∀ (b yd ud xd : ℕ) (σ : Type)
        (recognizer : σ → Matrix (Fin b) (Fin yd) ℚ → Matrix (Fin b) (Fin ud) ℚ →
          DiagonalGaussian b xd → DiagonalGaussian b xd)
        (optimStep : σ → Matrix (Fin b) (Fin yd) ℚ → Matrix (Fin b) (Fin ud) ℚ →
          DiagonalGaussian b xd → σ)
        (m : σ) (y : Matrix (Fin b) (Fin yd) ℚ) (u : Matrix (Fin b) (Fin ud) ℚ),
      OnlinePy.VJF.feed recognizer optimStep m y u none =
        OnlinePy.VJF.feed recognizer optimStep m y u
          (some (OnlinePy.VJF.feedDefaultPrior b xd)) ∧
      OnlinePy.VJF.feedDefaultPrior b xd =
        { mean := 0, logvar := 0 }) :=
  ⟨fun _ _ _ _ _ _ _ _ _ => ⟨rfl, rfl⟩, fun _ _ _ _ _ _ _ _ _ _ => ⟨rfl, rfl⟩⟩

/-- C2 counterexample: take the concrete instance `batch = 1`, `xdim = 1`
with the global learned prior mean parameter at the (trained) value `[1]`
and logvar `[0]`.  The claim predicts the no-previous-posterior prior of a
filtering step to be that parameter tiled, i.e. mean `[[1]]`; `online.py`'s
`feed` actually uses the zero prior, which differs. -/
theorem online_feed_prior_not_learned_cex :
    OnlinePy.VJF.feedDefaultPrior 1 1 ≠
      claimedGlobalPrior (fun _ => (1 : ℚ)) (fun _ => 0) 1 := by
  intro h
  have hm := congrArg (fun q => q.mean 0 0) h
  simp [OnlinePy.VJF.feedDefaultPrior, claimedGlobalPrior, tileRow] at hm

/-- C3 (amended): `online.py`'s `fit` stops early exactly when
`torch.isclose` holds between the total losses of two consecutive outer
iterations (the NaN-initialized previous loss never matches in the first
iteration), and the `Maximum iteration reached.` report fires exactly when
the budget is exhausted without that early stop, the call returning
normally either way; `model.py`'s `fit`, in contrast, has no convergence
check at all — it always executes exactly `max_iter` outer iterations. -/
theorem fit_convergence_loop :
    (∀ (σ : Type) (f : σ → ℚ) (g : σ → σ) (s0 : σ) (n : ℕ),
      ((OnlinePy.VJF.fit f g n s0).converged = true ↔
        ∃ j, j + 1 < n ∧
          torchIsClose (OnlinePy.lossTrace f g s0 j)
            (OnlinePy.lossTrace f g s0 (j + 1)) = true) ∧
      (OnlinePy.VJF.fit f g n s0).maxIterReported =
        !(OnlinePy.VJF.fit f g n s0).converged) ∧
    (∀ (σ : Type) (f : σ → ℚ) (g : σ → σ) (s0 : σ) (n : ℕ),
      (ModelPy.VJF.fit f g n s0).2.length = n) := by
  constructor
  · intro σ f g s0 n
    constructor
    · rw [OnlinePy.VJF.fit, fitGo_converged_iff f g n s0 none]
      constructor
      · rintro ⟨j, hj, hc⟩
        cases j with
        | zero => simp [torchIsCloseOpt] at hc
        | succ j' => exact ⟨j', by omega, hc⟩
      · rintro ⟨j, hj, hc⟩
        exact ⟨j + 1, by omega, hc⟩
    · exact fitGo_maxIterReported f g n s0 none
  · intro σ f g s0 n
    exact modelPyFit_length f g n s0

/-- C3 counterexample: on a model whose total loss is constantly `0` (so
the loss change between consecutive outer iterations is `0`, inside any
tolerance), `model.py`'s `fit` with `max_iter = 3` still executes all three
outer iterations — it never stops early and never reports. -/
theorem model_fit_no_early_stop_cex :
    (ModelPy.VJF.fit (fun _ => (0 : ℚ)) (fun s => s) 3 ()).2 = [0, 0, 0] ∧
    torchIsClose 0 0 = true := by
  refine ⟨rfl, ?_⟩
  simp [torchIsClose]

/-- C6: `forecast(x0, step = n, inclusive = True)` returns a latent and an
observation trajectory of length `n + 1` with the initial state first;
`inclusive = False` returns both of length `n`, and (under the same noise
draws) they are exactly the tails of the inclusive trajectories. -/
theorem forecast_lengths_tail {b xd yd : ℕ}
    (system : Matrix (Fin b) (Fin xd) ℚ → Matrix (Fin b) (Fin xd) ℚ)
    (std : ℚ) (noise : ℕ → Matrix (Fin b) (Fin xd) ℚ)
    (decodeLik : Matrix (Fin b) (Fin xd) ℚ → Matrix (Fin b) (Fin yd) ℚ)
    (x0 : Matrix (Fin b) (Fin xd) ℚ) (n : ℕ) :
    ((OnlinePy.VJF.forecast system std noise decodeLik x0 n true).1.length = n + 1 ∧
     (OnlinePy.VJF.forecast system std noise decodeLik x0 n true).2.length = n + 1 ∧
     (OnlinePy.VJF.forecast system std noise decodeLik x0 n true).1.head? = some x0) ∧
    ((OnlinePy.VJF.forecast system std noise decodeLik x0 n false).1.length = n ∧
     (OnlinePy.VJF.forecast system std noise decodeLik x0 n false).2.length = n ∧
     (OnlinePy.VJF.forecast system std noise decodeLik x0 n false).1 =
       (OnlinePy.VJF.forecast system std noise decodeLik x0 n true).1.tail ∧
     (OnlinePy.VJF.forecast system std noise decodeLik x0 n false).2 =
       (OnlinePy.VJF.forecast system std noise decodeLik x0 n true).2.tail) := by
  refine ⟨⟨?_, ?_, ?_⟩, ?_, ?_, rfl, rfl⟩
  · simp [OnlinePy.VJF.forecast]
  · simp [OnlinePy.VJF.forecast]
  · simp [OnlinePy.VJF.forecast, List.range_succ_eq_map]
    rfl
  · simp [OnlinePy.VJF.forecast]
  · simp [OnlinePy.VJF.forecast]

/-- C7: `GaussianLikelihood.loss` is the elementwise
`0.5 * (mse * precision + logvar)` with `precision = exp(-logvar)`, summed
over the output-dimension axis and averaged over the batch axis (the
two-axis shape contract of the asserted `mse.ndim == 2` is carried by the
`Matrix` type of the operands). -/
theorem gaussian_likelihood_loss_formula {b d : ℕ} (logvar : ℝ)
    (eta target : Matrix (Fin b) (Fin d) ℝ) :
    GaussianLikelihood.loss logvar eta target =
      (∑ i, ∑ j, (1 / 2) * ((eta i j - target i j) ^ 2 * Real.exp (-logvar)
        + logvar)) / b := by
  simp [GaussianLikelihood.loss, torchMeanVec, torchSumLastDim, torchMseLoss]

/-- C9: `model.py` does `from .module import bLinReg, RBF`, but `module.py`
binds no name `bLinReg` (its regressor class is `LinearRegression`), so
loading `model.py` raises `ImportError` and neither `RBFLDS` nor
`VJF.make_model` can ever be constructed from these sources. -/
theorem model_import_blinreg_fails :
    ModelPy.moduleTopLevelNames.contains "bLinReg" = false ∧
    ModelPy.loadModelPy =
      .error "ImportError: cannot import name bLinReg from vjf.module" ∧
    (∀ n_rbf xdim udim : ℕ, ModelPy.RBFLDS.make n_rbf xdim udim =
      .error "ImportError: cannot import name bLinReg from vjf.module") ∧
    (∀ ydim xdim udim n_rbf : ℕ, ModelPy.VJF.makeModel ydim xdim udim n_rbf =
      .error "ImportError: cannot import name bLinReg from vjf.module") :=
  ⟨rfl, rfl, fun _ _ _ => rfl, fun _ _ _ _ => rfl⟩

/-- C10: `online.py`'s `VJF.filter` converts `u` with `torch.as_tensor`
before running any filtering step, so `u = None` raises immediately — for
every model state, observation and initial posterior, and regardless of
what the filtering loop would do — while `model.py`'s `VJF.filter`
explicitly accepts `u = None`. -/
theorem online_filter_u_none_raises :
    (∀ (α β γ σ ρ : Type) (loop : σ → α → β → Option γ → ρ) (m : σ) (y : α)
        (q0 : Option γ),
      OnlinePy.VJF.filter loop m y none q0 =
        .error "RuntimeError: could not infer dtype of NoneType") ∧
    (∀ (b yd ud xd : ℕ) (ρ : Type) (p : ModelPy.VJFParams xd)
        (pipeline : Option (Matrix (Fin b) (Fin ud) ℚ) → DiagonalGaussian b xd → ρ)
        (y : Matrix (Fin b) (Fin yd) ℚ) (qs : Option (DiagonalGaussian b xd)),
      (ModelPy.VJF.filter p pipeline y none qs).isOk = true) :=
  ⟨fun _ _ _ _ _ _ _ _ _ => rfl, fun _ _ _ _ _ _ _ _ _ => rfl⟩

end Vjf


